import Mathlib

/-!
Verification of the concurrent module-graph builder in `src/service.rs`
(`AnalyzeService` / `Runtime`): the per-path cache-state stampede guard,
the module map, dependency resolution, star-export propagation, the
collector channel protocol and the dependency counter.

Machine integers (`usize`) are modelled as `Nat` with explicit wrapping
where overflow matters; the condition-variable wait of
`init_cache_state` is modelled by the hypothesis that the observed entry
is no longer `PendingStore(_)` when the body runs (the lock is held from
the moment `wait_while` returns until the function ends, so the body
sees exactly the post-wait entry).
-/

namespace Marsh

/-- The per-path cache-state value, from `enum CacheStateEntry` in
`service.rs` (lines 151-155). -/
inductive CacheStateEntry where
  | ReadyToConstruct : CacheStateEntry
  | PendingStore : Nat → CacheStateEntry
deriving DecidableEq

/-- The wait condition of `init_cache_state`:
`matches!(*state, CacheStateEntry::PendingStore(_))`. -/
def is_pending : CacheStateEntry → Bool
  | CacheStateEntry.PendingStore _ => true
  | CacheStateEntry.ReadyToConstruct => false

/-- What one call of `Runtime::init_cache_state` returns and leaves
behind for the given path: the returned `cache_hit` flag, the entry
written back to the cache-state table, and whether `notify_one` was
called. -/
structure InitCacheResult where
  cache_hit : Bool
  entry : CacheStateEntry
  notified : Bool
deriving DecidableEq

/-- Body of `Runtime::init_cache_state` (lines 429-452) after the
condvar wait, as a function of whether `module_map.contains_key(path)`
holds and of the entry observed after the wait.  Mirrors the source: the
hit branch leaves the entry alone; the miss branch reads the pending
counter (defaulting to 0 when the entry is `ReadyToConstruct`) and
writes `PendingStore(i + 1)`; afterwards `notify_one` is called iff the
entry now equals `ReadyToConstruct`. -/
def init_cache_state (module_map_contains : Bool) (state : CacheStateEntry) : InitCacheResult :=
  let after :=
    if module_map_contains then
      (true, state)
    else
      let i := match state with
        | CacheStateEntry.PendingStore i => i
        | CacheStateEntry.ReadyToConstruct => 0
      (false, CacheStateEntry.PendingStore (i + 1))
  { cache_hit := after.1
    entry := after.2
    notified := decide (after.2 = CacheStateEntry.ReadyToConstruct) }

/-- Body of `Runtime::update_cache_state` (lines 464-475): on
`PendingStore(i)` decrement; at zero flip back to `ReadyToConstruct`
and call `notify_one` (the `Bool` component); on `ReadyToConstruct`
do nothing.  Returns the entry written back and whether `notify_one`
was called. -/
def update_cache_state (state : CacheStateEntry) : CacheStateEntry × Bool :=
  match state with
  | CacheStateEntry.PendingStore i =>
      let new := i - 1
      if new = 0 then (CacheStateEntry.ReadyToConstruct, true)
      else (CacheStateEntry.PendingStore new, false)
  | CacheStateEntry.ReadyToConstruct => (CacheStateEntry.ReadyToConstruct, false)

/-- One lock-protected operation on a single path entry of the
cache-state table.  `init_cache_state` runs its body only once the wait
condition is false (the condvar releases the lock while waiting and
rechecks the predicate, so the body always sees a non-pending entry);
`update_cache_state` runs unconditionally. -/
inductive CacheStateStep : CacheStateEntry → CacheStateEntry → Prop where
  | init (hit : Bool) (s : CacheStateEntry) (hwait : is_pending s = false) :
      CacheStateStep s (init_cache_state hit s).entry
  | update (s : CacheStateEntry) :
      CacheStateStep s (update_cache_state s).1

/-- Entries reachable from the initial `ReadyToConstruct` value that
`or_insert_with` creates (line 421-426). -/
inductive ReachableEntry : CacheStateEntry → Prop where
  | start : ReachableEntry CacheStateEntry.ReadyToConstruct
  | step : ∀ s t, ReachableEntry s → CacheStateStep s t → ReachableEntry t

/-- A well-formed entry: `ReadyToConstruct`, or a pending counter of at
least one (a zero counter is always represented as
`ReadyToConstruct`). -/
def ValidEntry : CacheStateEntry → Prop
  | CacheStateEntry.ReadyToConstruct => True
  | CacheStateEntry.PendingStore n => 1 ≤ n

/-- Increment of the pending counter performed by the miss branch of
`init_cache_state` (lines 438-443), reading the counter as 0 when the
entry is `ReadyToConstruct`. -/
def increment_pending : CacheStateEntry → CacheStateEntry
  | CacheStateEntry.PendingStore i => CacheStateEntry.PendingStore (i + 1)
  | CacheStateEntry.ReadyToConstruct => CacheStateEntry.PendingStore 1

/-- Claim C1, literally as stated: after the wait, a hit returns `true`
with the entry unchanged, and a miss increments the counter, wakes one
other waiter if the entry was `ReadyToConstruct`, and returns
`false`. -/
def init_cache_state_claim : Prop :=
  ∀ (hit : Bool) (state : CacheStateEntry),
    is_pending state = false →
      (hit = true →
        (init_cache_state hit state).cache_hit = true ∧
        (init_cache_state hit state).entry = state) ∧
      (hit = false →
        (init_cache_state hit state).cache_hit = false ∧
        (init_cache_state hit state).entry = increment_pending state ∧
        (state = CacheStateEntry.ReadyToConstruct →
          (init_cache_state hit state).notified = true))

/-- A module record, from `oxc_semantic::ModuleRecord` as used by
`service.rs`: the requested import specifiers (map keys), the star
export entries (each carrying the optional module request name), the
locally exported binding names (map keys), the table of bindings
re-exported through `export *` keyed by the resolved absolute path of
the remote module, the map from specifier to the loaded dependency
record, and the resolved absolute path of the module itself.  Paths and
specifiers are strings. -/
inductive ModuleRecord : Type where
  | mk
      (requested_modules : List String)
      (star_export_entries : List (Option String))
      (exported_bindings : List String)
      (exported_bindings_from_star_export : List (String × List String))
      (loaded_modules : List (String × ModuleRecord))
      (resolved_absolute_path : String)

def ModuleRecord.requested_modules : ModuleRecord → List String
  | ModuleRecord.mk rm _ _ _ _ _ => rm

def ModuleRecord.star_export_entries : ModuleRecord → List (Option String)
  | ModuleRecord.mk _ se _ _ _ _ => se

def ModuleRecord.exported_bindings : ModuleRecord → List String
  | ModuleRecord.mk _ _ eb _ _ _ => eb

def ModuleRecord.exported_bindings_from_star_export :
    ModuleRecord → List (String × List String)
  | ModuleRecord.mk _ _ _ t _ _ => t

def ModuleRecord.loaded_modules : ModuleRecord → List (String × ModuleRecord)
  | ModuleRecord.mk _ _ _ _ lm _ => lm

def ModuleRecord.resolved_absolute_path : ModuleRecord → String
  | ModuleRecord.mk _ _ _ _ _ p => p

/-- Replace the star-export binding table of a record (the only field
the star-export loop writes). -/
def ModuleRecord.with_star_table :
    ModuleRecord → List (String × List String) → ModuleRecord
  | ModuleRecord.mk rm se eb _ lm p, t => ModuleRecord.mk rm se eb t lm p

/-- Replace the loaded-modules map of a record (the only field the
dependency-resolution stage writes). -/
def ModuleRecord.with_loaded_modules :
    ModuleRecord → List (String × ModuleRecord) → ModuleRecord
  | ModuleRecord.mk rm se eb t _ p, lm => ModuleRecord.mk rm se eb t lm p

/-- Lookup in a map modelled as an association list (`FxHashMap` or
`DashMap` in the source): the value stored with the first matching
key. -/
def assoc_get {α : Type} : List (String × α) → String → Option α
  | [], _ => none
  | kv :: rest, key => if kv.1 = key then some kv.2 else assoc_get rest key

/-- Remove every pair stored under `key` (the overwritten slot of a map
insertion). -/
def remove_key {α : Type} : List (String × α) → String → List (String × α)
  | [], _ => []
  | kv :: rest, key =>
      if kv.1 = key then remove_key rest key else kv :: remove_key rest key

/-- `table.entry(key).or_default().value_mut().extend(values)` on the
star-export binding table (lines 389-394): extend the existing list of
bindings for `key`, inserting an empty one first when absent. -/
def table_extend (t : List (String × List String)) (key : String)
    (values : List String) : List (String × List String) :=
  if (assoc_get t key).isSome then
    t.map (fun kv => if kv.1 = key then (kv.1, kv.2 ++ values) else kv)
  else
    t ++ [(key, values)]

/-- One iteration of the star-export loop of `process_source` (lines
365-395): look up the module request of the entry in `loaded_modules`;
when absent, `continue`; otherwise append the remote exported binding
names followed by the flattened remote star-export binding table to
the table of this record under the remote resolved absolute path. -/
def star_export_step (record : ModuleRecord) (entry : Option String) : ModuleRecord :=
  match entry.bind (fun name => assoc_get record.loaded_modules name) with
  | none => record
  | some remote =>
      let remote_star :=
        (remote.exported_bindings_from_star_export.map Prod.snd).flatten
      let remote_bindings := remote.exported_bindings ++ remote_star
      record.with_star_table
        (table_extend record.exported_bindings_from_star_export
          remote.resolved_absolute_path remote_bindings)

/-- The whole star-export loop: fold `star_export_step` over the star
export entries of the record. -/
def resolve_star_exports (record : ModuleRecord) : ModuleRecord :=
  record.star_export_entries.foldl star_export_step record

/-- `enum ModuleState` in `service.rs` (lines 160-164). -/
inductive ModuleState where
  | Resolved (record : ModuleRecord) : ModuleState
  | Ignored : ModuleState

/-- `DashMap::insert`: overwrite the value stored under `key`. -/
def module_map_insert (m : List (String × ModuleState)) (key : String)
    (value : ModuleState) : List (String × ModuleState) :=
  (key, value) :: remove_key m key

/-- `DashMap::get` on the module map. -/
def module_map_get (m : List (String × ModuleState)) (key : String) :
    Option ModuleState :=
  assoc_get m key

/-- `struct Message` from the repository (field `file_path`), pushed
once per entry of `loaded_modules` at the end of `process_source`. -/
structure Message where
  file_path : String
deriving DecidableEq

/-- The resolution stage of `process_source` (lines 333-343): resolve
every requested specifier; failed resolutions are removed by
`.ok()` followed by `.flatten()`, keeping `(specifier, resolved path)`
pairs.  The resolver is an oracle from specifier to optional resolved
path (the directory argument is fixed to the parent of the path being
processed). -/
def resolved_requests (resolve : String → Option String)
    (specifiers : List String) : List (String × String) :=
  specifiers.filterMap (fun s => (resolve s).map (fun p => (s, p)))

/-- The dependency-attachment stage of `process_source` (lines
344-360): after recursively processing a resolved target, look it up in
the module map; only a present `Resolved` state is inserted into
`loaded_modules` of the parent, keyed by the specifier.  `dep_state`
is the oracle giving the module-map entry of each resolved path at the
time of the lookup. -/
def loaded_additions (dep_state : String → Option ModuleState)
    (resolved : List (String × String)) : List (String × ModuleRecord) :=
  resolved.filterMap (fun sp =>
    match dep_state sp.2 with
    | some (ModuleState.Resolved r) => some (sp.1, r)
    | _ => none)

/-- Everything one call of `process_source` produces: the module map
left behind, whether `update_cache_state` was called for the path, the
final state of the record being built, the returned list of `Message`
values (one per loaded module), and the diagnostics sent on the
channel. -/
structure ProcessSourceResult where
  module_map : List (String × ModuleState)
  released : Bool
  record : ModuleRecord
  messages : List Message
  diagnostics : List (String × List String)

/-- `Runtime::process_source` (lines 289-409) for one source fragment,
with the parser, resolver and recursive descent abstracted into
oracles: `record` is the module record built by the semantic builder
(its `loaded_modules` map still empty), `parse_errors` the parser
diagnostics, `resolve` the resolver oracle and `dep_state` the
module-map entry each resolved dependency path has when the parent
looks it up.  When `cross_module` is false (the resolver is `None`) the
whole block at lines 324-396 is skipped: nothing is inserted into the
module map, the cache state is not updated and the record keeps its
empty `loaded_modules`. -/
def process_source (cross_module : Bool) (path : String)
    (m : List (String × ModuleState)) (record : ModuleRecord)
    (parse_errors : List String) (resolve : String → Option String)
    (dep_state : String → Option ModuleState) : ProcessSourceResult :=
  let diagnostics :=
    if parse_errors.isEmpty then [] else [(path, parse_errors)]
  if cross_module then
    let m1 := module_map_insert m path (ModuleState.Resolved record)
    let resolved := resolved_requests resolve record.requested_modules
    let record1 := record.with_loaded_modules
      (record.loaded_modules ++ loaded_additions dep_state resolved)
    let record2 := resolve_star_exports record1
    { module_map := m1
      released := true
      record := record2
      messages := record2.loaded_modules.map
        (fun kv => { file_path := kv.2.resolved_absolute_path })
      diagnostics := diagnostics }
  else
    { module_map := m
      released := false
      record := record
      messages := record.loaded_modules.map
        (fun kv => { file_path := kv.2.resolved_absolute_path })
      diagnostics := diagnostics }

/-- Claim C2, literally as stated: with cross-module resolution
disabled, processing a path still inserts a `Resolved` module state for
that path into the module map and returns with no edges. -/
def process_source_single_file_claim : Prop :=
  ∀ (path : String) (m : List (String × ModuleState)) (record : ModuleRecord)
    (parse_errors : List String) (resolve : String → Option String)
    (dep_state : String → Option ModuleState),
    (∃ r, module_map_get
        (process_source false path m record parse_errors resolve dep_state).module_map
        path = some (ModuleState.Resolved r)) ∧
    (process_source false path m record parse_errors resolve dep_state).messages = []

/-- Events of the cross-module branch of `process_source`, used to
state ordering properties: insertion of a module state into the module
map, the `update_cache_state` release of a path, and the start of the
recursive resolution of one dependency specifier. -/
inductive GEvent where
  | insert_resolved (path : String) (record : ModuleRecord) : GEvent
  | insert_ignored (path : String) : GEvent
  | release_cache (path : String) : GEvent
  | resolve_dependency (path : String) (specifier : String) : GEvent

/-- Effect of one event on the module map; only insertions change
it. -/
def apply_gevent (m : List (String × ModuleState)) : GEvent → List (String × ModuleState)
  | GEvent.insert_resolved p r => module_map_insert m p (ModuleState.Resolved r)
  | GEvent.insert_ignored p => module_map_insert m p ModuleState.Ignored
  | GEvent.release_cache _ => m
  | GEvent.resolve_dependency _ _ => m

/-- The module map produced by an interleaved global event sequence,
starting from the empty map a fresh `Runtime` owns. -/
def map_after (g : List GEvent) : List (String × ModuleState) :=
  g.foldl apply_gevent []

/-- The events of the cross-module branch of `process_source` for one
path, in program order (lines 324-360): insert `Resolved`, release the
cache-state entry, then resolve each requested specifier. -/
def process_source_trace (path : String) (record : ModuleRecord) : List GEvent :=
  GEvent.insert_resolved path record ::
    GEvent.release_cache path ::
      record.requested_modules.map (GEvent.resolve_dependency path)

/-- The dependency-resolution events of `process_source` (lines
333-347): one `resolve_dependency` event per successfully resolved
specifier; specifiers the resolver fails on are filtered out before the
`for_each` and trigger nothing. -/
def dependency_stage_trace (path : String) (resolve : String → Option String)
    (specifiers : List String) : List GEvent :=
  (resolved_requests resolve specifiers).map
    (fun sp => GEvent.resolve_dependency path sp.1)

/-- `Runtime::ignore_path` (lines 477-483): only when the resolver is
present, insert `Ignored` and release the cache-state entry; returns
the new module map and whether `update_cache_state` was called. -/
def ignore_path (cross_module : Bool) (m : List (String × ModuleState))
    (path : String) : List (String × ModuleState) × Bool :=
  if cross_module then (module_map_insert m path ModuleState.Ignored, true)
  else (m, false)

/-- What the early phase of `process_path` produces: the module map
left behind, whether the cache-state entry was released, the
diagnostics sent, and the source text when processing continues past
the read. -/
structure ProcessPathOutcome where
  module_map : List (String × ModuleState)
  released : Bool
  sent : List (String × List String)
  proceeded : Option String

/-- `Runtime::process_path` (lines 237-259) up to and including the
file read: return on a cache hit (which `init_cache_state` can report
only in cross-module mode); `ignore_path` and return when the extension
is missing or the source kind is unsupported; on a read error,
`ignore_path`, send one diagnostic `(path, [message])` and return;
otherwise hand the source text to the rest of the function. -/
def process_path_until_read (cross_module : Bool)
    (m : List (String × ModuleState)) (path : String) (raced_hit : Bool)
    (ext : Option String) (supported : Bool)
    (read_result : Except String String) : ProcessPathOutcome :=
  if cross_module && raced_hit then
    { module_map := m, released := false, sent := [], proceeded := none }
  else
    match ext with
    | none =>
        let mr := ignore_path cross_module m path
        { module_map := mr.1, released := mr.2, sent := [], proceeded := none }
    | some _ =>
        if !supported then
          let mr := ignore_path cross_module m path
          { module_map := mr.1, released := mr.2, sent := [], proceeded := none }
        else
          match read_result with
          | Except.error e =>
              let mr := ignore_path cross_module m path
              { module_map := mr.1, released := mr.2
                sent := [(path, [e])], proceeded := none }
          | Except.ok text =>
              { module_map := m, released := false, sent := [], proceeded := some text }

/-- Claim C6, literally as stated: for every path whose content cannot
be read, processing marks the path `Ignored` in the module map,
releases its cache-state entry, emits exactly one diagnostic
`(path, [message])`, and leaves every other path untouched. -/
def read_failure_claim : Prop :=
  ∀ (cross_module : Bool) (m : List (String × ModuleState))
    (path ext_name e : String),
    (module_map_get
      (process_path_until_read cross_module m path false (some ext_name) true
        (Except.error e)).module_map path = some ModuleState.Ignored) ∧
    (process_path_until_read cross_module m path false (some ext_name) true
      (Except.error e)).released = true ∧
    (process_path_until_read cross_module m path false (some ext_name) true
      (Except.error e)).sent = [(path, [e])] ∧
    ∀ q, q ≠ path →
      module_map_get
        (process_path_until_read cross_module m path false (some ext_name) true
          (Except.error e)).module_map q = module_map_get m q

/-- `AnalyzeService::run` (lines 99-108): the parallel `for_each` over
the entry paths sends only `Some(...)` values (every send inside
`process_path` and `process_source` wraps its tuple in `Some`); after
it returns, line 107 sends the single `None`.  `body` is the
interleaving of the tuples the producers sent. -/
def run_sent (body : List (String × List String)) :
    List (Option (String × List String)) :=
  body.map some ++ [none]

/-- `usize::MAX + 1`. -/
def USIZE : Nat := 2 ^ 64

/-- Wrapping `usize` subtraction (release-mode semantics of `a - b`),
valid for operands below `2 ^ 64`. -/
def usize_sub (a b : Nat) : Nat := (USIZE + a - b) % USIZE

/-- The state `AnalyzeService::number_of_dependencies` reads: the
module map and the set of entry paths of the runtime. -/
structure ServiceState where
  module_map : List (String × ModuleState)
  paths : List String

/-- `AnalyzeService::number_of_dependencies` (lines 94-96):
`module_map.len() - paths.len()` in `usize` arithmetic. -/
def number_of_dependencies (s : ServiceState) : Nat :=
  usize_sub s.module_map.length s.paths.length

/-- A concrete module record for the file `c.ts` exporting `x` and
`y`. -/
def sample_module_c : ModuleRecord :=
  ModuleRecord.mk [] [] ["x", "y"] [] [] "/abs/c.ts"

/-- A concrete module record for a file `b.ts` containing
`export * from "./c"`, with `./c` already resolved and loaded. -/
def sample_module_b : ModuleRecord :=
  ModuleRecord.mk [] [some "./c"] [] [] [("./c", sample_module_c)] "/abs/b.ts"

lemma valid_init (hit : Bool) (s : CacheStateEntry) (hwait : is_pending s = false) :
    ValidEntry (init_cache_state hit s).entry := by
  cases s with
  | ReadyToConstruct =>
      cases hit <;> simp [init_cache_state, ValidEntry]
  | PendingStore n => simp [is_pending] at hwait

lemma valid_update (s : CacheStateEntry) (hs : ValidEntry s) :
    ValidEntry (update_cache_state s).1 := by
  cases s with
  | ReadyToConstruct => simp [update_cache_state, ValidEntry]
  | PendingStore n =>
      by_cases h : n - 1 = 0 <;>
        simp [update_cache_state, ValidEntry, h] at hs ⊢
      omega

lemma reachable_entry_valid (s : CacheStateEntry) (hs : ReachableEntry s) :
    ValidEntry s := by
  induction hs with
  | start => trivial
  | step s t _ hstep ih =>
      cases hstep with
      | init hit s hwait => exact valid_init hit s hwait
      | update s => exact valid_update s ih

lemma assoc_get_remove_key {α : Type} (m : List (String × α)) (key q : String)
    (hq : q ≠ key) :
    assoc_get (remove_key m key) q = assoc_get m q := by
  induction m with
  | nil => rfl
  | cons a l ih =>
      by_cases ha : a.1 = key
      · have hkq : ¬ (key = q) := fun hh => hq hh.symm
        simp [remove_key, assoc_get, ha, hkq, ih]
      · by_cases haq : a.1 = q
        · simp [remove_key, assoc_get, ha, haq, hq]
        · simp [remove_key, assoc_get, ha, haq, ih]

lemma module_map_get_insert (m : List (String × ModuleState))
    (key : String) (value : ModuleState) (q : String) :
    module_map_get (module_map_insert m key value) q
      = if q = key then some value else module_map_get m q := by
  by_cases hq : q = key
  · subst hq
    simp [module_map_get, module_map_insert, assoc_get]
  · have hkq : ¬ (key = q) := fun h => hq h.symm
    simp [module_map_get, module_map_insert, assoc_get, hkq, hq,
      assoc_get_remove_key m key q hq]

lemma assoc_get_map_extend (t : List (String × List String)) (key : String)
    (values : List String) :
    assoc_get (t.map (fun kv => if kv.1 = key then (kv.1, kv.2 ++ values) else kv)) key
      = (assoc_get t key).map (fun v => v ++ values) := by
  induction t with
  | nil => rfl
  | cons a l ih =>
      by_cases ha : a.1 = key
      · simp [assoc_get, ha]
      · simp [assoc_get, ha, ih]

lemma assoc_get_map_extend_other (t : List (String × List String)) (key : String)
    (values : List String) (q : String) (hq : q ≠ key) :
    assoc_get (t.map (fun kv => if kv.1 = key then (kv.1, kv.2 ++ values) else kv)) q
      = assoc_get t q := by
  induction t with
  | nil => rfl
  | cons a l ih =>
      have hkq : ¬ (key = q) := fun hh => hq hh.symm
      by_cases ha : a.1 = key
      · have haq : ¬ (a.1 = q) := by
          rw [ha]
          exact fun hh => hq hh.symm
        simp [assoc_get, ha, haq, hkq, ih]
      · by_cases haq : a.1 = q
        · simp [assoc_get, ha, haq, hq]
        · simp [assoc_get, ha, haq, ih]

lemma assoc_get_append {α : Type} (t l : List (String × α)) (q : String) :
    assoc_get (t ++ l) q
      = match assoc_get t q with
        | some v => some v
        | none => assoc_get l q := by
  induction t with
  | nil => rfl
  | cons a tl ih =>
      by_cases ha : a.1 = q <;> simp [assoc_get, ha, ih]

lemma assoc_get_table_extend_self (t : List (String × List String))
    (key : String) (values : List String) :
    assoc_get (table_extend t key values) key
      = some ((assoc_get t key).getD [] ++ values) := by
  unfold table_extend
  cases h : assoc_get t key with
  | some v => simp [h, assoc_get_map_extend]
  | none =>
      simp only [h, Option.isSome_none, Bool.false_eq_true, if_false,
        Option.getD_none]
      rw [assoc_get_append]
      simp [h, assoc_get]

lemma assoc_get_table_extend_other (t : List (String × List String))
    (key : String) (values : List String) (q : String) (hq : q ≠ key) :
    assoc_get (table_extend t key values) q = assoc_get t q := by
  unfold table_extend
  cases h : assoc_get t key with
  | some v => simp [h, assoc_get_map_extend_other t key values q hq]
  | none =>
      have hkq : ¬ (key = q) := fun hh => hq hh.symm
      simp only [h, Option.isSome_none, Bool.false_eq_true, if_false]
      rw [assoc_get_append]
      cases h2 : assoc_get t q <;> simp [assoc_get, hq, hkq]

lemma with_star_table_sets (rec : ModuleRecord) (t : List (String × List String)) :
    (rec.with_star_table t).exported_bindings_from_star_export = t := by
  cases rec
  rfl

lemma module_map_get_foldl_resolved (g : List GEvent) :
    ∀ (m : List (String × ModuleState)) (p : String) (r : ModuleRecord),
      module_map_get (g.foldl apply_gevent m) p = some (ModuleState.Resolved r) →
      GEvent.insert_resolved p r ∈ g ∨
        module_map_get m p = some (ModuleState.Resolved r) := by
  induction g with
  | nil => exact fun m p r h => Or.inr h
  | cons e tail ih =>
      intro m p r h
      rw [List.foldl_cons] at h
      rcases ih (apply_gevent m e) p r h with h1 | h2
      · exact Or.inl (List.mem_cons_of_mem _ h1)
      · cases e with
        | insert_resolved p1 r1 =>
            by_cases hp : p = p1
            · subst hp
              simp only [apply_gevent, module_map_get_insert, if_pos rfl] at h2
              obtain rfl : r1 = r := by
                injection h2 with h3
                injection h3
              exact Or.inl (List.mem_cons_self _ _)
            · simp only [apply_gevent, module_map_get_insert, if_neg hp] at h2
              exact Or.inr h2
        | insert_ignored p1 =>
            by_cases hp : p = p1
            · subst hp
              simp only [apply_gevent, module_map_get_insert, if_pos rfl] at h2
              exact absurd h2 (by simp)
            · simp only [apply_gevent, module_map_get_insert, if_neg hp] at h2
              exact Or.inr h2
        | release_cache p1 => exact Or.inr h2
        | resolve_dependency p1 s1 => exact Or.inr h2

/-- C1 counterexample: the claim as stated is false.  At the concrete
input hit = false, entry = `ReadyToConstruct` (the only entry the wait
can leave behind), the claim demands that the miss branch wake one
waiter, but the source checks the entry only after writing
`PendingStore(1)` into it, so `notify_one` is not called. -/
theorem init_cache_state_claim_refuted : ¬ init_cache_state_claim := by
  intro h
  have h2 := ((h false CacheStateEntry.ReadyToConstruct rfl).2 rfl).2.2 rfl
  exact absurd h2 (by decide)

/-- C1 (amended): `init_cache_state` waits until the entry is not
`PendingStore(_)`, hence sees `ReadyToConstruct`; a hit returns `true`
with the entry unchanged and wakes one further waiter (the entry is
still `ReadyToConstruct` at the final check); a miss records the claim
as `PendingStore(1)`, returns `false` and wakes no one (the final check
sees `PendingStore`). -/
theorem init_cache_state_contract (hit : Bool) (state : CacheStateEntry)
    (hwait : is_pending state = false) :
    state = CacheStateEntry.ReadyToConstruct ∧
    (hit = true →
      (init_cache_state hit state).cache_hit = true ∧
      (init_cache_state hit state).entry = state ∧
      (init_cache_state hit state).notified = true) ∧
    (hit = false →
      (init_cache_state hit state).cache_hit = false ∧
      (init_cache_state hit state).entry = increment_pending state ∧
      (init_cache_state hit state).notified = false) := by
  cases state with
  | PendingStore n => simp [is_pending] at hwait
  | ReadyToConstruct =>
      exact ⟨rfl, fun h => by subst h; decide, fun h => by subst h; decide⟩

/-- Witness for C1 (amended) at hit = false and a
`ReadyToConstruct` entry. -/
theorem init_cache_state_contract_witness :
    (init_cache_state false CacheStateEntry.ReadyToConstruct).cache_hit = false ∧
    (init_cache_state false CacheStateEntry.ReadyToConstruct).entry
      = increment_pending CacheStateEntry.ReadyToConstruct ∧
    (init_cache_state false CacheStateEntry.ReadyToConstruct).notified = false :=
  (init_cache_state_contract false CacheStateEntry.ReadyToConstruct rfl).2.2 rfl

/-- C4: `update_cache_state` on `PendingStore(i)` decrements the
counter; when it reaches zero the entry flips back to
`ReadyToConstruct` and exactly one waiter is woken (`notify_one` is
called iff the counter reached zero); and every reachable cache-state
entry is `ReadyToConstruct` or `PendingStore(n)` with `1 ≤ n`, so
entries only transition `ReadyToConstruct` → `PendingStore(n)` → … →
`PendingStore(0) = ReadyToConstruct`. -/
theorem update_cache_state_release (i : Nat) (_hi : 1 ≤ i) :
    (update_cache_state (CacheStateEntry.PendingStore i)).1
      = (if i - 1 = 0 then CacheStateEntry.ReadyToConstruct
         else CacheStateEntry.PendingStore (i - 1)) ∧
    ((update_cache_state (CacheStateEntry.PendingStore i)).2 = true ↔ i - 1 = 0) ∧
    (∀ s, ReachableEntry s → ValidEntry s) := by
  refine ⟨?_, ?_, reachable_entry_valid⟩ <;>
    by_cases h : i - 1 = 0 <;> simp [update_cache_state, h]

/-- Witness for C4 at a counter of 1. -/
theorem update_cache_state_release_witness :
    (update_cache_state (CacheStateEntry.PendingStore 1)).1
      = CacheStateEntry.ReadyToConstruct ∧
    ((update_cache_state (CacheStateEntry.PendingStore 1)).2 = true ↔ 1 - 1 = 0) :=
  ⟨(update_cache_state_release 1 (by decide)).1,
   (update_cache_state_release 1 (by decide)).2.1⟩

/-- C10: a reachable cache-state entry is never stored as
`PendingStore(0)` (a zero counter is written as `ReadyToConstruct`), so
every decrement in `update_cache_state` acts on a counter of at least 1
and cannot underflow; and on a `ReadyToConstruct` entry
`update_cache_state` changes nothing and wakes no one. -/
theorem cache_entry_no_underflow (s : CacheStateEntry) (hs : ReachableEntry s) :
    s ≠ CacheStateEntry.PendingStore 0 ∧
    (∀ i, s = CacheStateEntry.PendingStore i → 1 ≤ i ∧ i - 1 + 1 = i) ∧
    update_cache_state CacheStateEntry.ReadyToConstruct
      = (CacheStateEntry.ReadyToConstruct, false) := by
  have hv := reachable_entry_valid s hs
  refine ⟨?_, ?_, rfl⟩
  · rintro rfl
    simp [ValidEntry] at hv
  · rintro i rfl
    simp only [ValidEntry] at hv
    exact ⟨hv, by omega⟩

/-- Witness for C10 at the reachable entry `PendingStore(1)`, produced
from the initial `ReadyToConstruct` by one miss of
`init_cache_state`. -/
theorem cache_entry_no_underflow_witness :
    CacheStateEntry.PendingStore 1 ≠ CacheStateEntry.PendingStore 0 ∧
    ((1 : Nat) ≤ 1 ∧ 1 - 1 + 1 = 1) ∧
    update_cache_state CacheStateEntry.ReadyToConstruct
      = (CacheStateEntry.ReadyToConstruct, false) :=
  have h := cache_entry_no_underflow (CacheStateEntry.PendingStore 1)
    (ReachableEntry.step _ _ ReachableEntry.start
      (CacheStateStep.init false CacheStateEntry.ReadyToConstruct rfl))
  ⟨h.1, h.2.1 1 rfl, h.2.2⟩

/-- C2 counterexample: the claim as stated is false.  With cross-module
resolution disabled, processing a path over the empty module map leaves
the map empty: no `Resolved` state is inserted for the path (the
insertion at lines 325-328 sits inside `if self.resolver.is_some()`). -/
theorem process_source_single_file_claim_refuted :
    ¬ process_source_single_file_claim := by
  intro h
  obtain ⟨⟨r, hr⟩, -⟩ := h "a.ts" [] (ModuleRecord.mk [] [] [] [] [] "a.ts") []
    (fun _ => none) (fun _ => none)
  simp [process_source, module_map_get, assoc_get] at hr

/-- C2 (amended): with cross-module resolution disabled,
`process_source` inserts nothing into the module map, does not touch
the cache state, and returns with no edges (the freshly built record
has an empty `loaded_modules` map). -/
theorem process_source_single_file (path : String)
    (m : List (String × ModuleState)) (record : ModuleRecord)
    (parse_errors : List String) (resolve : String → Option String)
    (dep_state : String → Option ModuleState)
    (hfresh : record.loaded_modules = []) :
    (process_source false path m record parse_errors resolve dep_state).module_map = m ∧
    (process_source false path m record parse_errors resolve dep_state).released = false ∧
    (process_source false path m record parse_errors resolve dep_state).messages = [] := by
  refine ⟨rfl, rfl, ?_⟩
  simp [process_source, hfresh]

/-- Witness for C2 (amended) at a concrete fresh record. -/
theorem process_source_single_file_witness :
    (process_source false "a.ts" [] (ModuleRecord.mk [] [] [] [] [] "a.ts") []
      (fun _ => none) (fun _ => none)).module_map = [] ∧
    (process_source false "a.ts" [] (ModuleRecord.mk [] [] [] [] [] "a.ts") []
      (fun _ => none) (fun _ => none)).released = false ∧
    (process_source false "a.ts" [] (ModuleRecord.mk [] [] [] [] [] "a.ts") []
      (fun _ => none) (fun _ => none)).messages = [] :=
  process_source_single_file "a.ts" [] (ModuleRecord.mk [] [] [] [] [] "a.ts") []
    (fun _ => none) (fun _ => none) rfl

/-- C6 counterexample: the claim as stated is false.  With cross-module
resolution disabled, a read failure leaves the module map untouched:
`ignore_path` inserts `Ignored` only when the resolver is present, so
no `Ignored` state appears for the failing path. -/
theorem read_failure_claim_refuted : ¬ read_failure_claim := by
  intro h
  have h1 := (h false [] "a.ts" "ts" "io error").1
  simp [process_path_until_read, ignore_path, module_map_get, assoc_get] at h1

/-- C6 (amended): on a read failure `process_path` sends exactly one
diagnostic `(path, [message])` and stops processing the path; in
cross-module mode it additionally marks the path `Ignored` in the
module map, releases its cache-state entry, and leaves every other
path unchanged; in single-file mode the module map is untouched and no
release happens. -/
theorem read_failure_handling (cross_module : Bool)
    (m : List (String × ModuleState)) (path ext_name e : String) :
    (process_path_until_read cross_module m path false (some ext_name) true
      (Except.error e)).sent = [(path, [e])] ∧
    (process_path_until_read cross_module m path false (some ext_name) true
      (Except.error e)).proceeded = none ∧
    (cross_module = true →
      module_map_get (process_path_until_read cross_module m path false
        (some ext_name) true (Except.error e)).module_map path
        = some ModuleState.Ignored ∧
      (process_path_until_read cross_module m path false (some ext_name) true
        (Except.error e)).released = true ∧
      ∀ q, q ≠ path →
        module_map_get (process_path_until_read cross_module m path false
          (some ext_name) true (Except.error e)).module_map q
          = module_map_get m q) ∧
    (cross_module = false →
      (process_path_until_read cross_module m path false (some ext_name) true
        (Except.error e)).module_map = m ∧
      (process_path_until_read cross_module m path false (some ext_name) true
        (Except.error e)).released = false) := by
  cases cross_module with
  | false =>
      refine ⟨rfl, rfl, fun h => absurd h (by decide), fun _ => ⟨rfl, rfl⟩⟩
  | true =>
      refine ⟨rfl, rfl, fun _ => ⟨?_, rfl, fun q hq => ?_⟩,
        fun h => absurd h (by decide)⟩
      · show module_map_get (module_map_insert m path ModuleState.Ignored) path
          = some ModuleState.Ignored
        simp [module_map_get_insert]
      · show module_map_get (module_map_insert m path ModuleState.Ignored) q
          = module_map_get m q
        simp [module_map_get_insert, hq]

/-- Witness for C6 (amended) in cross-module mode over the empty map. -/
theorem read_failure_handling_witness :
    (process_path_until_read true [] "a.ts" false (some "ts") true
      (Except.error "io error")).sent = [("a.ts", ["io error"])] ∧
    (process_path_until_read true [] "a.ts" false (some "ts") true
      (Except.error "io error")).proceeded = none ∧
    module_map_get (process_path_until_read true [] "a.ts" false (some "ts") true
      (Except.error "io error")).module_map "a.ts" = some ModuleState.Ignored :=
  have h := read_failure_handling true [] "a.ts" "ts" "io error"
  ⟨h.1, h.2.1, (h.2.2.1 rfl).1⟩

/-- C8: every message the parallel loop over entry paths sends is a
`Some(...)` tuple, and `run` sends the single `None` after the loop has
returned, so the stream `run` produces contains exactly one `None` and
it is the final element: it closes the channel only after every entry
path has been processed. -/
theorem run_terminal_sentinel (body : List (String × List String)) :
    (run_sent body).countP (fun x => x.isNone) = 1 ∧
    (run_sent body).getLast? = some none := by
  constructor
  · have h0 : (body.map some).countP
        (fun x : Option (String × List String) => x.isNone) = 0 := by
      rw [List.countP_eq_zero]
      intro x hx
      obtain ⟨y, -, rfl⟩ := List.mem_map.mp hx
      simp
    simp [run_sent, List.countP_append, h0]
  · simp [run_sent]

/-- C9: `number_of_dependencies` is `module_map.len() - paths.len()` in
`usize` arithmetic; whenever the module map holds fewer entries than
the entry-path set the subtraction underflows, returning
`2^64 - (paths.len() - module_map.len())` instead of the (negative)
true difference; and processing with cross-module resolution disabled
never writes the module map, so such states do arise, e.g. after a
single-file run over a non-empty entry set. -/
theorem number_of_dependencies_underflow (s : ServiceState)
    (hm : s.module_map.length < s.paths.length)
    (hp : s.paths.length ≤ USIZE) :
    number_of_dependencies s
      = USIZE - (s.paths.length - s.module_map.length) ∧
    (number_of_dependencies s : Int)
      ≠ (s.module_map.length : Int) - (s.paths.length : Int) ∧
    (∀ (m : List (String × ModuleState)) (path : String) (raced_hit : Bool)
        (ext : Option String) (supported : Bool)
        (rr : Except String String),
      (process_path_until_read false m path raced_hit ext supported rr).module_map
        = m) := by
  have hval : number_of_dependencies s
      = USIZE - (s.paths.length - s.module_map.length) := by
    unfold number_of_dependencies usize_sub
    have h1 : USIZE + s.module_map.length - s.paths.length < USIZE := by omega
    rw [Nat.mod_eq_of_lt h1]
    omega
  refine ⟨hval, ?_, ?_⟩
  · intro hc
    have hnn : (0 : Int) ≤ (number_of_dependencies s : Int) := Int.natCast_nonneg _
    have hmi : (s.module_map.length : Int) < (s.paths.length : Int) := by
      exact_mod_cast hm
    omega
  · intro m path raced_hit ext supported rr
    cases ext with
    | none => rfl
    | some _ =>
        cases supported with
        | false => rfl
        | true =>
            cases rr with
            | error e => rfl
            | ok t => rfl

/-- Witness for C9 at the post-run single-file state with one entry
path and an empty module map. -/
theorem number_of_dependencies_underflow_witness :
    number_of_dependencies { module_map := [], paths := ["a.ts"] } = USIZE - 1 ∧
    (number_of_dependencies { module_map := [], paths := ["a.ts"] } : Int)
      ≠ (0 : Int) - 1 ∧
    (process_path_until_read false [] "b.ts" false (some "ts") true
      (Except.ok "let x = 1")).module_map = [] :=
  have h := number_of_dependencies_underflow
    { module_map := [], paths := ["a.ts"] } (by decide) (by decide)
  ⟨h.1, h.2.1, h.2.2 [] "b.ts" false (some "ts") true (Except.ok "let x = 1")⟩

/-- C3: in the cross-module branch of `process_source` the events for a
parsed path occur in program order: position 0 is the `Resolved`
insertion into the module map, position 1 the release of the
cache-state entry, and every dependency-resolution event sits at
position 2 or later; moreover, in any interleaved global event
sequence, a module-map lookup returns `Resolved(r)` for a path only if
the insertion of exactly that record occurred earlier in the sequence,
so a dependent thread never observes the record of a path before its
`Resolved` state is in the module map. -/
theorem process_source_insert_release_order (path : String) (record : ModuleRecord) :
    (process_source_trace path record).get? 0
      = some (GEvent.insert_resolved path record) ∧
    (process_source_trace path record).get? 1
      = some (GEvent.release_cache path) ∧
    (∀ i p s, (process_source_trace path record).get? i
        = some (GEvent.resolve_dependency p s) → 2 ≤ i) ∧
    (∀ (g : List GEvent) (p : String) (r : ModuleRecord),
      module_map_get (map_after g) p = some (ModuleState.Resolved r) →
      GEvent.insert_resolved p r ∈ g) := by
  refine ⟨rfl, rfl, ?_, ?_⟩
  · intro i p s h
    match i with
    | 0 => exact Option.noConfusion h (fun hh => GEvent.noConfusion hh)
    | 1 => exact Option.noConfusion h (fun hh => GEvent.noConfusion hh)
    | Nat.succ (Nat.succ i) => omega
  · intro g p r h
    rcases module_map_get_foldl_resolved g [] p r h with h1 | h2
    · exact h1
    · exact absurd h2 (by simp [module_map_get, assoc_get])

/-- Witness for C3: the trace of a file importing `./b`, and the
observation property on the one-insertion global sequence. -/
theorem process_source_insert_release_order_witness :
    (process_source_trace "a.ts" (ModuleRecord.mk ["./b"] [] [] [] [] "/abs/a.ts")).get? 0
      = some (GEvent.insert_resolved "a.ts"
          (ModuleRecord.mk ["./b"] [] [] [] [] "/abs/a.ts")) ∧
    (2 : Nat) ≤ 2 ∧
    GEvent.insert_resolved "b.ts" sample_module_c
      ∈ [GEvent.insert_resolved "b.ts" sample_module_c] :=
  have h := process_source_insert_release_order "a.ts"
    (ModuleRecord.mk ["./b"] [] [] [] [] "/abs/a.ts")
  ⟨h.1, h.2.2.1 2 "a.ts" "./b" rfl,
   h.2.2.2 [GEvent.insert_resolved "b.ts" sample_module_c] "b.ts" sample_module_c rfl⟩

/-- C5: one iteration of the star-export loop over a star-export entry:
when the module request of the entry is not among the loaded modules
the record is left unchanged (the entry is skipped); when it resolves
to a remote record X, the re-exported-bindings table of the record
gains, under the resolved absolute path of X, exactly the exported
bindings of X followed by the flattened already-resolved
star-re-exported bindings of X, with every other key unchanged; the
full pass is the left fold of this step over the star-export
entries. -/
theorem star_export_processing (record : ModuleRecord) (entry : Option String) :
    (entry.bind (fun name => assoc_get record.loaded_modules name) = none →
      star_export_step record entry = record) ∧
    (∀ remote,
      entry.bind (fun name => assoc_get record.loaded_modules name) = some remote →
      assoc_get (star_export_step record entry).exported_bindings_from_star_export
          remote.resolved_absolute_path
        = some ((assoc_get record.exported_bindings_from_star_export
              remote.resolved_absolute_path).getD []
            ++ (remote.exported_bindings
              ++ (remote.exported_bindings_from_star_export.map Prod.snd).flatten)) ∧
      (∀ k, k ≠ remote.resolved_absolute_path →
        assoc_get (star_export_step record entry).exported_bindings_from_star_export k
          = assoc_get record.exported_bindings_from_star_export k)) ∧
    resolve_star_exports record
      = record.star_export_entries.foldl star_export_step record := by
  refine ⟨?_, ?_, rfl⟩
  · intro h
    unfold star_export_step
    rw [h]
  · intro remote h
    unfold star_export_step
    rw [h]
    constructor
    · rw [with_star_table_sets, assoc_get_table_extend_self]
    · intro k hk
      rw [with_star_table_sets, assoc_get_table_extend_other _ _ _ _ hk]

/-- Witness for C5: `b.ts` contains `export * from "./c"` and `c.ts`
exports `x` and `y`; after the step the table of `b.ts` maps the
resolved path of `c.ts` to `[x, y]`, and an unrelated key is
unchanged. -/
theorem star_export_processing_witness :
    assoc_get (star_export_step sample_module_b
        (some "./c")).exported_bindings_from_star_export "/abs/c.ts"
      = some ["x", "y"] ∧
    assoc_get (star_export_step sample_module_b
        (some "./c")).exported_bindings_from_star_export "/abs/other.ts"
      = assoc_get sample_module_b.exported_bindings_from_star_export "/abs/other.ts" :=
  have h := (star_export_processing sample_module_b (some "./c")).2.1
    sample_module_c rfl
  ⟨h.1, h.2 "/abs/other.ts" (by decide)⟩

/-- C7: a specifier the resolver fails on is dropped silently: it
contributes no pair to the resolved requests, no entry keyed by it in
the loaded-modules map of the parent, and no recursive processing event
(hence no edge and no diagnostic); removing such a specifier from the
requested list leaves the dependency-resolution stage unchanged. -/
theorem resolution_failure_silent (resolve : String → Option String)
    (specifiers : List String) (s : String) (hs : resolve s = none)
    (path : String) (dep_state : String → Option ModuleState) :
    (∀ p, (s, p) ∉ resolved_requests resolve specifiers) ∧
    (∀ r, (s, r) ∉ loaded_additions dep_state (resolved_requests resolve specifiers)) ∧
    GEvent.resolve_dependency path s ∉ dependency_stage_trace path resolve specifiers ∧
    dependency_stage_trace path resolve (s :: specifiers)
      = dependency_stage_trace path resolve specifiers := by
  have h1 : ∀ p, (s, p) ∉ resolved_requests resolve specifiers := by
    intro p hp
    rcases List.mem_filterMap.mp hp with ⟨a, -, hfa⟩
    cases hra : resolve a with
    | none => rw [hra] at hfa; simp at hfa
    | some q =>
        rw [hra] at hfa
        simp at hfa
        obtain ⟨rfl, rfl⟩ := hfa
        rw [hs] at hra
        exact Option.noConfusion hra
  refine ⟨h1, ?_, ?_, ?_⟩
  · intro r hr
    rcases List.mem_filterMap.mp hr with ⟨sp, hsp, hmatch⟩
    have hsp1 : sp.1 = s := by
      revert hmatch
      cases dep_state sp.2 with
      | none => exact fun hmatch => Option.noConfusion hmatch
      | some st =>
          cases st with
          | Resolved r0 =>
              intro hmatch
              simp only [Option.some.injEq, Prod.mk.injEq] at hmatch
              exact hmatch.1
          | Ignored => exact fun hmatch => Option.noConfusion hmatch
    refine h1 sp.2 ?_
    rw [show (s, sp.2) = sp from ?_]
    · exact hsp
    · rw [Prod.mk.injEq]
      exact ⟨hsp1.symm, rfl⟩
  · intro hmem
    rcases List.mem_map.mp hmem with ⟨sp, hsp, heq⟩
    have hsp1 : sp.1 = s := by
      injection heq
    refine h1 sp.2 ?_
    rw [show (s, sp.2) = sp from ?_]
    · exact hsp
    · rw [Prod.mk.injEq]
      exact ⟨hsp1.symm, rfl⟩
  · unfold dependency_stage_trace resolved_requests
    rw [List.filterMap_cons, hs]
    rfl

/-- Witness for C7 at a resolver that fails on every specifier. -/
theorem resolution_failure_silent_witness :
    GEvent.resolve_dependency "a.ts" "./missing"
      ∉ dependency_stage_trace "a.ts" (fun _ => none) ["./missing"] ∧
    dependency_stage_trace "a.ts" (fun _ => none) ("./missing" :: ["./missing"])
      = dependency_stage_trace "a.ts" (fun _ => none) ["./missing"] :=
  have h := resolution_failure_silent (fun _ => none) ["./missing"] "./missing"
    rfl "a.ts" (fun _ => none)
  ⟨h.2.2.1, h.2.2.2⟩

end Marsh
